import Mathlib

/-!
Verification of the EduStream backend against its specification.

The definitions below are a shallow embedding of the Python source:
  * `backend/app/services/scenario_pool.py` (template selection and the
    `beam_ss_two_loads` option formatting),
  * `backend/app/api/routes/publish.py` (queue endpoints and the schedule
    planner),
  * `backend/app/workers/sqs_worker.py` (the publish worker),
  * `backend/app/api/routes/generate.py` (the generation pipeline).

Times are modelled as integers (minutes since an arbitrary epoch); the
randomness of `random.choice` is modelled by an explicit index argument;
database rows are lists of records; code that raises `HTTPException`
returns an `Except` value together with the unchanged database state.
-/

namespace EduStream

/-! ## Scenario pool: template selection (`scenario_pool.py`)

`ScenarioPool._pick_template` consults only the `id` field of
`ScenarioTemplate` (and `_match_templates` consults `tags`), so only those
fields of the Python dataclass are embedded; the formatting closures of the
dataclass are modelled separately where a claim needs them. -/

structure ScenarioTemplate where
  id : String
  tags : List String := []
deriving DecidableEq

/-- Embedding of `{tid: idx for idx, tid in enumerate(recent_ids)}` followed by
`.get(tid, -1)`: the index of the last occurrence of `tid` in `recent_ids`,
or `-1` when absent (later duplicates overwrite earlier dict entries). -/
def idToRecency (recentIds : List String) (tid : String) : Int :=
  recentIds.enum.foldl (fun acc p => if p.2 = tid then (p.1 : Int) else acc) (-1)

/-- Stable insertion of an element into a list according to an integer key:
the new element goes after all earlier elements with the same key.  Used to
model Python's stable `sorted`. -/
def insertByKey (key : α → Int) (a : α) : List α → List α
  | [] => [a]
  | b :: l => if key a < key b then a :: b :: l else b :: insertByKey key a l

/-- Model of Python's `sorted(l, key=...)`: a stable sort by an integer key. -/
def sortedByKey (key : α → Int) : List α → List α
  | [] => []
  | a :: l => insertByKey key a (sortedByKey key l)

/-- Model of `random.choice(l)`: the randomness is supplied as an explicit
index `k`; on an empty list the Python call raises, modelled by `none`. -/
def choiceFrom (l : List α) (k : Nat) : Option α :=
  l.get? (k % l.length)

/-- Embedding of `ScenarioPool._pick_template`.  `k` supplies the randomness
of `random.choice`; the final branch (`candidates_sorted[0]`) is
deterministic. -/
def pickTemplate (candidates : List ScenarioTemplate) (recentIds : List String)
    (k : Nat) : Option ScenarioTemplate :=
  if recentIds.isEmpty then
    choiceFrom candidates k
  else
    let fresh := candidates.filter (fun t => !(recentIds.contains t.id))
    if fresh.isEmpty then
      (sortedByKey (fun t => idToRecency recentIds t.id) candidates).head?
    else
      choiceFrom fresh k

/-! ## Numeric formatting and the `beam_ss_two_loads` template

The template arithmetic is embedded as exact rational arithmetic on
unreduced fractions (`Frac`, an integer numerator over a positive natural
denominator, without gcd normalization so that every operation is a plain
structural computation the kernel can evaluate).  Python's `round(x, d)`
(round-half-to-even) and the `:.1f` format specifier are modelled exactly.
At the inputs used below every intermediate value is a small decimal that is
exactly representable as an IEEE-754 double, so this exact model renders the
same strings as the Python code.  The `Frac.val_*` lemmas verify that the
operations denote the intended rational arithmetic. -/

/-- An unreduced fraction `num / den`; all constructions below keep
`den` positive. -/
structure Frac where
  num : Int
  den : Nat
deriving DecidableEq

/-- Denotation of a fraction as a rational number. -/
def Frac.val (a : Frac) : ℚ := (a.num : ℚ) / (a.den : ℚ)

def Frac.ofInt (n : Int) : Frac := ⟨n, 1⟩

def Frac.add (a b : Frac) : Frac :=
  ⟨a.num * (b.den : Int) + b.num * (a.den : Int), a.den * b.den⟩

def Frac.sub (a b : Frac) : Frac :=
  ⟨a.num * (b.den : Int) - b.num * (a.den : Int), a.den * b.den⟩

def Frac.mul (a b : Frac) : Frac := ⟨a.num * b.num, a.den * b.den⟩

/-- Division; the divisors occurring in the templates are positive. -/
def Frac.div (a b : Frac) : Frac :=
  if 0 ≤ b.num then ⟨a.num * (b.den : Int), a.den * b.num.toNat⟩
  else ⟨-(a.num * (b.den : Int)), a.den * (-b.num).toNat⟩

/-- Strict comparison of fractions (denominators positive). -/
def Frac.blt (a b : Frac) : Bool := a.num * (b.den : Int) < b.num * (a.den : Int)

def Frac.abs (a : Frac) : Frac := ⟨|a.num|, a.den⟩

/-- Floor of a fraction: floor division of the numerator by the (positive)
denominator. -/
def Frac.floor (a : Frac) : Int := a.num.fdiv (a.den : Int)

/-- Round a fraction to the nearest integer, ties to even (the rounding mode
of Python's builtin `round` and of `format`). -/
def roundHalfEven (a : Frac) : Int :=
  let n := a.floor
  let fr := a.sub (Frac.ofInt n)
  if fr.blt ⟨1, 2⟩ then n
  else if (⟨1, 2⟩ : Frac).blt fr then n + 1
  else if n % 2 = 0 then n else n + 1

/-- Embedding of Python's `round(q, d)`. -/
def pyRound (a : Frac) (d : ℕ) : Frac :=
  ⟨roundHalfEven (a.mul ⟨(10 : Int) ^ d, 1⟩), 10 ^ d⟩

/-- Embedding of the `:.1f` format specifier: round to one decimal (ties to
even) and print with exactly one digit after the point. -/
def formatFixed1 (a : Frac) : String :=
  let k := roundHalfEven (a.mul ⟨10, 1⟩)
  let m := k.natAbs
  (if k < 0 then "-" else "") ++ toString (m / 10) ++ "." ++ toString (m % 10)

/-- Embedding of `ParamRange`: a randomizable numeric parameter. -/
structure ParamRange where
  minVal : Frac
  maxVal : Frac
  step : Frac

/-- Number of discretization steps, `int((max_val - min_val) / step)` (the
values involved are nonnegative, so truncation agrees with floor). -/
def ParamRange.numSteps (r : ParamRange) : ℕ :=
  ((r.maxVal.sub r.minVal).div r.step).floor.toNat

/-- The value set `ParamRange.sample` draws from:
`min_val + randint(0, steps) * step`. -/
def ParamRange.memDomain (r : ParamRange) (x : Frac) : Prop :=
  ∃ k : ℕ, k ≤ r.numSteps ∧ x = r.minVal.add ((Frac.ofInt k).mul r.step)

/-- A parameter valuation for the `beam_ss_two_loads` template. -/
structure BeamTwoLoads where
  length : Frac
  load1 : Frac
  load2 : Frac
  dist1 : Frac
  dist2 : Frac

/-- The declared parameter domain of `beam_ss_two_loads`. -/
def beamSsTwoLoads_domain (p : BeamTwoLoads) : Prop :=
  ParamRange.memDomain ⟨⟨8, 1⟩, ⟨12, 1⟩, ⟨2, 1⟩⟩ p.length ∧
  ParamRange.memDomain ⟨⟨10, 1⟩, ⟨30, 1⟩, ⟨5, 1⟩⟩ p.load1 ∧
  ParamRange.memDomain ⟨⟨10, 1⟩, ⟨30, 1⟩, ⟨5, 1⟩⟩ p.load2 ∧
  ParamRange.memDomain ⟨⟨2, 1⟩, ⟨3, 1⟩, ⟨1, 1⟩⟩ p.dist1 ∧
  ParamRange.memDomain ⟨⟨5, 1⟩, ⟨7, 1⟩, ⟨1, 1⟩⟩ p.dist2

/-- Embedding of the `solve` closure of `beam_ss_two_loads`; returns
`(ra, rb)`. -/
def beamSsTwoLoads_solve (p : BeamTwoLoads) : Frac × Frac :=
  let moments := ((p.load1.mul p.dist1).add (p.load2.mul p.dist2)).div p.length
  let rb := pyRound moments 1
  let ra := pyRound ((p.load1.add p.load2).sub moments) 1
  (ra, rb)

/-- Embedding of the `format_options` closure of `beam_ss_two_loads`:
option 0 is the correct answer, the others are guarded distractors. -/
def beamSsTwoLoads_options (p : BeamTwoLoads) : List String :=
  let s := beamSsTwoLoads_solve p
  let ra := s.1
  let rb := s.2
  [ "Ra = " ++ formatFixed1 ra ++ " kN, Rb = " ++ formatFixed1 rb ++ " kN",
    if ((ra.sub rb).abs.blt ⟨1, 2⟩) then
      "Ra = " ++ formatFixed1 (ra.add ⟨3, 1⟩) ++ " kN, Rb = " ++
        formatFixed1 (rb.sub ⟨3, 1⟩) ++ " kN"
    else
      "Ra = " ++ formatFixed1 rb ++ " kN, Rb = " ++ formatFixed1 ra ++ " kN",
    "Ra = " ++ formatFixed1 (p.load1.add p.load2) ++ " kN, Rb = 0 kN",
    if ((ra.sub p.load1).abs.blt ⟨1, 2⟩ ∧ (rb.sub p.load2).abs.blt ⟨1, 2⟩) ∨
        ((rb.sub p.load1).abs.blt ⟨1, 2⟩ ∧ (ra.sub p.load2).abs.blt ⟨1, 2⟩) then
      "Ra = " ++ formatFixed1 (ra.mul ⟨13, 10⟩) ++ " kN, Rb = " ++
        formatFixed1 (rb.mul ⟨7, 10⟩) ++ " kN"
    else
      "Ra = " ++ formatFixed1 p.load1 ++ " kN, Rb = " ++ formatFixed1 p.load2 ++ " kN" ]

/-! ## Data model (`models/content.py`, `config.py`) -/

inductive ContentStatus
  | draft | generating | ready | queued | published | failed
deriving DecidableEq

inductive ScheduleStatus
  | pending | published | failed
deriving DecidableEq

inductive Platform
  | youtube | tiktok | instagram | twitter
deriving DecidableEq

/-- Embedding of `Platform(request.platform)`: parsing the platform string,
`none` when the Python enum constructor would raise `ValueError`. -/
def Platform.ofString : String → Option Platform
  | "youtube" => some .youtube
  | "tiktok" => some .tiktok
  | "instagram" => some .instagram
  | "twitter" => some .twitter
  | _ => none

/-- The structured script payload (`Content.script_data`), with the fields
the embedded routes consult. -/
structure ScriptData where
  template_id : Option String := none
  hook_text : String := ""
  diagram_description : String := ""
  content_steps : List String := []
  answer_options : List String := []
  correct_answer : Option String := none
  tweet_text : String := ""
  cta_text : String := ""
deriving DecidableEq

structure Content where
  id : Nat
  topic_id : Nat := 0
  script_text : Option String := none
  script_data : Option ScriptData := none
  diagram_path : Option String := none
  status : ContentStatus
  error_message : Option String := none
  created_at : Int := 0
deriving DecidableEq

structure Schedule where
  id : Nat
  content_id : Nat
  platform : Platform
  scheduled_at : Int
  published_at : Option Int := none
  status : ScheduleStatus
  platform_post_id : Option String := none
  error_message : Option String := none
  created_at : Int := 0
deriving DecidableEq

structure Topic where
  id : Nat
  name : String := ""
  category : String := ""
deriving DecidableEq

/-- The body of a queued publish job (`sqs_service.enqueue_publish`). -/
structure SqsMessage where
  content_id : Nat
  platform : String
  caption : String
  image_path : String
  scheduled_at : Option Int
deriving DecidableEq

/-- Database state plus the outbox of jobs sent to the queue transport.
`publishIntervalSetting` is the `AppSetting` row with key
`publish_interval_minutes` (absent when unset). -/
structure Db where
  topics : List Topic := []
  contents : List Content := []
  schedules : List Schedule := []
  publishIntervalSetting : Option Int := none
  nextScheduleId : Nat := 0
  sqsOutbox : List SqsMessage := []
deriving DecidableEq

/-- The static settings from `config.py` consulted by the embedded routes
(`use_sqs` and the `sqs_publish_interval_minutes` fallback, default 120). -/
structure AppConfig where
  useSqs : Bool
  sqsPublishIntervalMinutes : Int := 120
deriving DecidableEq

def findContent (db : Db) (cid : Nat) : Option Content :=
  db.contents.find? (fun c => decide (c.id = cid))

/-- Embedding of `_get_publish_interval`: the DB setting when present,
otherwise the static fallback. -/
def getPublishInterval (cfg : AppConfig) (db : Db) : Int :=
  match db.publishIntervalSetting with
  | some v => v
  | none => cfg.sqsPublishIntervalMinutes

/-- Embedding of `select(func.max(Schedule.scheduled_at)).where(status ==
PENDING)`: the maximum `scheduled_at` over all PENDING schedule records
(across all platforms), `none` when there are no PENDING records. -/
def maxPendingScheduledAt (schedules : List Schedule) : Option Int :=
  (schedules.filter (fun s => decide (s.status = ScheduleStatus.pending))).foldl
    (fun acc s =>
      match acc with
      | none => some s.scheduled_at
      | some m => some (max m s.scheduled_at))
    none

/-- Embedding of `_build_caption` (empty Python strings are falsy). -/
def buildCaption (content : Content) (custom : Option String) : String :=
  if custom.getD "" ≠ "" then custom.getD ""
  else
    let sd := content.script_data.getD {}
    if sd.tweet_text ≠ "" then sd.tweet_text
    else
      if sd.cta_text ≠ "" then sd.hook_text ++ "\n\n" ++ sd.cta_text
      else if sd.hook_text ≠ "" then sd.hook_text
      else "Check this out!"

/-- Apply `f` to every content row with the given id (the ORM mutation
`content.status = ...` followed by commit). -/
def updateContent (contents : List Content) (cid : Nat) (f : Content → Content) :
    List Content :=
  contents.map (fun c => if c.id = cid then f c else c)

/-! ## Queue endpoints (`publish.py`) -/

structure QueueRequest where
  content_id : Nat
  platform : String := "twitter"
  scheduled_at : Option Int := none
deriving DecidableEq

inductive ApiError
  | badRequest (detail : String)
  | notFound (detail : String)
  | serverError (detail : String)
deriving DecidableEq

structure QueueResult where
  schedule_id : Nat
  scheduled_at : Int
deriving DecidableEq

/-- Embedding of the `POST /queue` route `queue_content`.  Error paths
return the database unchanged (FastAPI raises before commit); the enqueue to
the transport happens before the schedule row is created, mirroring the
source order. -/
def queue_content (cfg : AppConfig) (db : Db) (now : Int) (req : QueueRequest) :
    Db × Except ApiError QueueResult :=
  if cfg.useSqs then
    match findContent db req.content_id with
    | none => (db, .error (.notFound "Content not found"))
    | some content =>
      if content.status = ContentStatus.ready ∨
          content.status = ContentStatus.published then
        match content.diagram_path with
        | none => (db, .error (.badRequest "Content has no image to publish"))
        | some img =>
          let scheduled_at :=
            match req.scheduled_at with
            | some t => t
            | none =>
              match maxPendingScheduledAt db.schedules with
              | some last => last + getPublishInterval cfg db
              | none => now + 5
          let caption := buildCaption content none
          let msg : SqsMessage :=
            ⟨content.id, req.platform, caption, img, some scheduled_at⟩
          let db1 := { db with sqsOutbox := db.sqsOutbox ++ [msg] }
          match Platform.ofString req.platform with
          | none => (db1, .error (.serverError "invalid platform"))
          | some pf =>
            let sched : Schedule :=
              { id := db1.nextScheduleId, content_id := content.id,
                platform := pf, scheduled_at := scheduled_at,
                status := ScheduleStatus.pending, created_at := now }
            let db2 := { db1 with
              schedules := db1.schedules ++ [sched],
              nextScheduleId := db1.nextScheduleId + 1,
              contents := updateContent db1.contents content.id
                (fun c => { c with status := ContentStatus.queued }) }
            (db2, .ok ⟨sched.id, scheduled_at⟩)
      else
        (db, .error (.badRequest "Content is not ready for queuing"))
  else
    (db, .error (.badRequest "SQS is not configured"))

/-- The filter and ordering of the `queue-all` route: READY contents with a
diagram, in creation order (a stable ascending sort on `created_at`). -/
def readyContents (db : Db) : List Content :=
  sortedByKey (fun c => c.created_at)
    (db.contents.filter
      (fun c => decide (c.status = ContentStatus.ready) &&
        decide (c.diagram_path ≠ none)))

/-- The loop body of `queue_all_ready`: the item processed with counter
`queuedCount` is scheduled at `lastTime + interval * (queuedCount + 1)`. -/
def enqueueReadyLoop (interval lastTime now : Int) :
    List Content → Nat → Db → Db
  | [], _, db => db
  | c :: rest, queuedCount, db =>
    let scheduled_at := lastTime + interval * ((queuedCount : Int) + 1)
    let caption := buildCaption c none
    let msg : SqsMessage :=
      ⟨c.id, "twitter", caption, c.diagram_path.getD "", some scheduled_at⟩
    let sched : Schedule :=
      { id := db.nextScheduleId, content_id := c.id,
        platform := Platform.twitter, scheduled_at := scheduled_at,
        status := ScheduleStatus.pending, created_at := now }
    let db' := { db with
      sqsOutbox := db.sqsOutbox ++ [msg],
      schedules := db.schedules ++ [sched],
      nextScheduleId := db.nextScheduleId + 1,
      contents := updateContent db.contents c.id
        (fun x => { x with status := ContentStatus.queued }) }
    enqueueReadyLoop interval lastTime now rest (queuedCount + 1) db'

/-- Embedding of the `POST /queue-all` route `queue_all_ready`. -/
def queue_all_ready (cfg : AppConfig) (db : Db) (now : Int) :
    Db × Except ApiError Nat :=
  if cfg.useSqs then
    let ready := readyContents db
    if ready.isEmpty then (db, .ok 0)
    else
      let lastTime := (maxPendingScheduledAt db.schedules).getD now
      let interval := getPublishInterval cfg db
      (enqueueReadyLoop interval lastTime now ready 0 db, .ok ready.length)
  else
    (db, .error (.badRequest "SQS is not configured."))

/-! ## Publish worker (`workers/sqs_worker.py`)

The Twitter collaborator call is modelled by an explicit oracle argument
`twitterResult`; `process_message` returns the updated database and a
boolean: `true` means the poll loop deletes the message, `false` leaves it
to become redeliverable after the visibility timeout. -/

structure TweetResult where
  tweet_id : String
  url : String
deriving DecidableEq

/-- Embedding of the query in `_update_db`: the PENDING schedule for this
content with the greatest `created_at` (`order_by(created_at.desc()).limit(1)`;
on equal timestamps the first such row in table order, matching a stable
descending sort). -/
def mostRecentPending (schedules : List Schedule) (cid : Nat) : Option Schedule :=
  (sortedByKey (fun s => -s.created_at)
    (schedules.filter
      (fun s => decide (s.content_id = cid) &&
        decide (s.status = ScheduleStatus.pending)))).head?

/-- Embedding of `_update_db`: set the content row (if any) to PUBLISHED or
FAILED, and finalize the most recently created PENDING schedule record for
the content (if any); missing rows are silently skipped. -/
def update_db (db : Db) (cid : Nat) (success : Bool) (tweet_id : Option String)
    (error : Option String) (now : Int) : Db :=
  let contents' := updateContent db.contents cid
    (fun c => { c with status := if success then ContentStatus.published
                                 else ContentStatus.failed })
  let finalize : Schedule → Schedule := fun s =>
    if success then
      { s with status := ScheduleStatus.published, published_at := some now,
               platform_post_id := tweet_id }
    else
      { s with status := ScheduleStatus.failed, error_message := error }
  let schedules' :=
    match mostRecentPending db.schedules cid with
    | none => db.schedules
    | some sch => db.schedules.map (fun s => if s.id = sch.id then finalize s else s)
  { db with contents := contents', schedules := schedules' }

/-- Embedding of `process_message`.  Returns the new database state and
whether the message is deleted from the queue. -/
def process_message (db : Db) (msg : SqsMessage) (now : Int)
    (twitterResult : Except String TweetResult) : Db × Bool :=
  match msg.scheduled_at with
  | some t =>
    if t > now then (db, false)
    else processDueMessage db msg now twitterResult
  | none => processDueMessage db msg now twitterResult
where
  /-- The due part of `process_message`: unsupported platforms and publish
  failures finalize as FAILED, successes as PUBLISHED; all three terminal
  outcomes delete the job. -/
  processDueMessage (db : Db) (msg : SqsMessage) (now : Int)
      (twitterResult : Except String TweetResult) : Db × Bool :=
    if msg.platform ≠ "twitter" then
      (update_db db msg.content_id false none
        (some ("Unsupported platform: " ++ msg.platform)) now, true)
    else
      match twitterResult with
      | .ok r => (update_db db msg.content_id true (some r.tweet_id) none now, true)
      | .error e => (update_db db msg.content_id false none (some e) now, true)

/-- One iteration of `poll_loop` with one received message at the head of
the queue: the message is deleted exactly when `process_message` returns
`true`. -/
def pollOnce (db : Db) (queue : List SqsMessage) (now : Int)
    (twitterResult : Except String TweetResult) : Db × List SqsMessage :=
  match queue with
  | [] => (db, [])
  | msg :: rest =>
    let r := process_message db msg now twitterResult
    (r.1, if r.2 then rest else msg :: rest)

/-! ## Generation pipeline (`api/routes/generate.py`)

The AI script generator and the diagram renderer are modelled as oracle
functions returning `Except`; an `.error` value is the collaborator raising
an exception. -/

/-- Embedding of the recency query in `run_generation_pipeline`: template
ids of the (up to) 50 most recently created non-null script payloads, most
recent first (empty-string template ids are falsy in Python and skipped). -/
def recentTemplateIds (db : Db) : List String :=
  ((sortedByKey (fun c => -c.created_at)
      (db.contents.filter (fun c => decide (c.script_data ≠ none)))).take 50).filterMap
    (fun c =>
      match c.script_data with
      | some sd =>
        match sd.template_id with
        | some tid => if tid = "" then none else some tid
        | none => none
      | none => none)

/-- The `script_text` assembled from the script payload:
`hook_text + " " + " ".join(step texts)`. -/
def scriptTextOf (sd : ScriptData) : String :=
  sd.hook_text ++ " " ++ String.intercalate " " sd.content_steps

/-- Embedding of `run_generation_pipeline`.  On an AI failure only status
and error are committed; on a diagram failure the already assigned script
fields are committed together with the FAILED status (same ORM session); on
success everything is committed with status READY. -/
def run_generation_pipeline (db : Db) (cid : Nat)
    (ai : List String → Except String ScriptData)
    (diagram : ScriptData → Except String String) : Db :=
  match findContent db cid with
  | none => db
  | some _ =>
    match ai (recentTemplateIds db) with
    | .error e =>
      let f : Content → Content := fun c =>
        { c with status := ContentStatus.failed, error_message := some e }
      { db with contents := updateContent db.contents cid f }
    | .ok sd =>
      match diagram sd with
      | .error e =>
        let f : Content → Content := fun c =>
          { c with script_data := some sd,
                   script_text := some (scriptTextOf sd),
                   status := ContentStatus.failed, error_message := some e }
        { db with contents := updateContent db.contents cid f }
      | .ok dpath =>
        let f : Content → Content := fun c =>
          { c with script_data := some sd,
                   script_text := some (scriptTextOf sd),
                   diagram_path := some dpath, status := ContentStatus.ready }
        { db with contents := updateContent db.contents cid f }

/-! ## Concrete fixtures used by witnesses and counterexamples -/

/-- A READY content item with a diagram. -/
def fixContentReady : Content :=
  { id := 1, status := ContentStatus.ready, diagram_path := some "img.png" }

/-- A DRAFT content item without a diagram. -/
def fixContentDraft : Content :=
  { id := 1, status := ContentStatus.draft }

/-- A PENDING schedule record for content 1 at the given time. -/
def fixPendingAt (t : Int) : Schedule :=
  { id := 0, content_id := 1, platform := Platform.twitter,
    scheduled_at := t, status := ScheduleStatus.pending }

/-- A database with one READY content item, one PENDING schedule at time `t`
and interval setting 10. -/
def fixDbPending (t : Int) : Db :=
  { contents := [fixContentReady], schedules := [fixPendingAt t],
    publishIntervalSetting := some 10, nextScheduleId := 1 }

/-- A database with one DRAFT content item. -/
def fixDbDraft : Db := { contents := [fixContentDraft] }

/-- A due publish job for content 7. -/
def fixMsg (sat : Option Int) : SqsMessage :=
  ⟨7, "twitter", "cap", "img.png", sat⟩

/-- A PENDING schedule record for content 7 used by the C7 witness. -/
def fixSchedPending7 : Schedule :=
  { id := 3, content_id := 7, platform := Platform.twitter,
    scheduled_at := 50, status := ScheduleStatus.pending }

/-- A database with content 7 QUEUED and its PENDING schedule. -/
def fixDbWorker : Db :=
  { contents := [{ id := 7, status := ContentStatus.queued }],
    schedules := [fixSchedPending7] }

/-- A GENERATING content item and the database holding it. -/
def fixContentGen : Content := { id := 1, status := ContentStatus.generating }

def fixDbGen : Db := { contents := [fixContentGen] }

/-- An AI collaborator oracle that succeeds with an empty payload. -/
def aiOk : List String → Except String ScriptData := fun _ => Except.ok {}

/-- A diagram collaborator oracle that succeeds. -/
def diagramOk : ScriptData → Except String String :=
  fun _ => Except.ok "img.png"

/-! ## C3: bulk queue spacing -/

/-- The arithmetic shape of the bulk loop's schedule times: item processed
with counter `qc` (0-based) gets `lastTime + interval * (qc + 1)`. -/
def timesFrom (interval lastTime : Int) : Nat → Nat → List Int
  | _, 0 => []
  | qc, Nat.succ n =>
    (lastTime + interval * ((qc : Int) + 1)) :: timesFrom interval lastTime (qc + 1) n

/-- The schedule records appended by the bulk loop. -/
def mkPendingScheds (interval lastTime now : Int) :
    List Content → Nat → Nat → List Schedule
  | [], _, _ => []
  | c :: rest, qc, nid =>
    { id := nid, content_id := c.id, platform := Platform.twitter,
      scheduled_at := lastTime + interval * ((qc : Int) + 1),
      status := ScheduleStatus.pending, created_at := now } ::
      mkPendingScheds interval lastTime now rest (qc + 1) (nid + 1)

/-- A READY content item with id and creation time `n`. -/
def fixReadyN (n : Nat) : Content :=
  { id := n, status := ContentStatus.ready, diagram_path := some "img.png",
    created_at := (n : Int) }

/-- A database with three READY items and interval setting 10. -/
def fixDbThreeReady : Db :=
  { contents := [fixReadyN 1, fixReadyN 2, fixReadyN 3],
    publishIntervalSetting := some 10 }

theorem choiceFrom_mem {l : List α} (h : l ≠ []) (k : Nat) :
    ∃ a, choiceFrom l k = some a ∧ a ∈ l := by
  have hlen : 0 < l.length := List.length_pos.mpr h
  have hlt : k % l.length < l.length := Nat.mod_lt _ hlen
  refine ⟨l.get ⟨k % l.length, hlt⟩, ?_, List.get_mem _ _ _⟩
  simp [choiceFrom, List.get?_eq_get hlt]

/-- C9: when some candidate is not in the recency list, the selected template
comes from the fresh subset, hence its id is not in the recency list. -/
theorem pick_template_coverage_before_repeat
    (candidates : List ScenarioTemplate) (recentIds : List String) (k : Nat)
    (t0 : ScenarioTemplate) (ht0 : t0 ∈ candidates)
    (hfresh : t0.id ∉ recentIds) :
    ∃ t, pickTemplate candidates recentIds k = some t ∧ t.id ∉ recentIds := by
  unfold pickTemplate
  by_cases hre : recentIds.isEmpty
  · have hnil : recentIds = [] := List.isEmpty_iff.mp hre
    have hcand : candidates ≠ [] := by
      intro hc; rw [hc] at ht0; exact (List.not_mem_nil t0) ht0
    obtain ⟨t, hchoice, _⟩ := choiceFrom_mem hcand k
    refine ⟨t, ?_, by simp [hnil]⟩
    rw [if_pos hre, hchoice]
  · have hmem : t0 ∈ candidates.filter (fun t => !(recentIds.contains t.id)) := by
      refine List.mem_filter.mpr ⟨ht0, ?_⟩
      simp [List.contains, hfresh]
    have hne : candidates.filter (fun t => !(recentIds.contains t.id)) ≠ [] := by
      intro hc; rw [hc] at hmem; exact (List.not_mem_nil t0) hmem
    obtain ⟨t, hchoice, htmem⟩ := choiceFrom_mem hne k
    have hprop := (List.mem_filter.mp htmem).2
    refine ⟨t, ?_, ?_⟩
    · rw [if_neg hre]
      have hniE : (candidates.filter (fun t => !(recentIds.contains t.id))).isEmpty = false := by
        rcases h' : (candidates.filter (fun t => !(recentIds.contains t.id))) with _ | _
        · exact absurd h' hne
        · rw [h']; rfl
      simp only [hniE, Bool.false_eq_true, if_false]
      exact hchoice
    · intro habs
      simp [List.contains, habs] at hprop

/-- Witness for C9 at a concrete input: two candidates, one of them fresh. -/
theorem pick_template_coverage_before_repeat_witness :
    (⟨"beam_ss_center", []⟩ : ScenarioTemplate) ∈
        [(⟨"beam_ss_center", []⟩ : ScenarioTemplate), ⟨"beam_ss_udl", []⟩] ∧
      "beam_ss_center" ∉ ["beam_ss_udl"] ∧
      ∃ t, pickTemplate [⟨"beam_ss_center", []⟩, ⟨"beam_ss_udl", []⟩]
          ["beam_ss_udl"] 0 = some t ∧ t.id ∉ ["beam_ss_udl"] :=
  ⟨by decide, by decide,
    pick_template_coverage_before_repeat _ _ 0 ⟨"beam_ss_center", []⟩
      (by decide) (by decide)⟩

/-- C1: with two candidates both present in the recency list (ordered
most-recent-first, as `run_generation_pipeline` builds it), the code returns
the candidate occupying the LOWEST index of the recency list — the most
recently used one — not the highest-index (least-recently-used) one that the
specification and the function's own docstring describe. -/
theorem pick_template_lru_tiebreak_bug :
    pickTemplate [⟨"beam_ss_center", []⟩, ⟨"beam_ss_udl", []⟩]
        ["beam_ss_center", "beam_ss_udl"] 0 =
      some ⟨"beam_ss_center", []⟩ ∧
    ["beam_ss_center", "beam_ss_udl"].get? 1 = some "beam_ss_udl" ∧
    "beam_ss_center" ≠ "beam_ss_udl" := by
  refine ⟨?_, by decide, by decide⟩
  decide

theorem Frac.val_add (a b : Frac) (ha : a.den ≠ 0) (hb : b.den ≠ 0) :
    (a.add b).val = a.val + b.val := by
  have ha' : ((a.den : ℚ)) ≠ 0 := Nat.cast_ne_zero.mpr ha
  have hb' : ((b.den : ℚ)) ≠ 0 := Nat.cast_ne_zero.mpr hb
  simp only [Frac.val, Frac.add]
  push_cast
  field_simp

theorem Frac.val_sub (a b : Frac) (ha : a.den ≠ 0) (hb : b.den ≠ 0) :
    (a.sub b).val = a.val - b.val := by
  have ha' : ((a.den : ℚ)) ≠ 0 := Nat.cast_ne_zero.mpr ha
  have hb' : ((b.den : ℚ)) ≠ 0 := Nat.cast_ne_zero.mpr hb
  simp only [Frac.val, Frac.sub]
  push_cast
  field_simp
  ring

theorem Frac.val_mul (a b : Frac) :
    (a.mul b).val = a.val * b.val := by
  simp only [Frac.val, Frac.mul]
  push_cast
  ring

theorem Frac.val_div (a b : Frac) (ha : a.den ≠ 0) (hbd : b.den ≠ 0)
    (hb : 0 < b.num) : (a.div b).val = a.val / b.val := by
  have ha' : ((a.den : ℚ)) ≠ 0 := Nat.cast_ne_zero.mpr ha
  have hbd' : ((b.den : ℚ)) ≠ 0 := Nat.cast_ne_zero.mpr hbd
  have hb0 : ((b.num : ℚ)) ≠ 0 := by exact_mod_cast (ne_of_gt hb)
  have h2 : ((b.num.toNat : ℕ) : ℚ) = ((b.num : ℤ) : ℚ) := by
    rw [← Int.cast_natCast (R := ℚ), Int.toNat_of_nonneg (le_of_lt hb)]
  simp only [Frac.val, Frac.div, if_pos (le_of_lt hb)]
  push_cast
  rw [h2]
  field_simp

theorem Frac.blt_iff (a b : Frac) (ha : 0 < a.den) (hb : 0 < b.den) :
    a.blt b = true ↔ a.val < b.val := by
  simp only [Frac.val, Frac.blt, decide_eq_true_eq]
  have ha' : (0 : ℚ) < (a.den : ℚ) := by exact_mod_cast ha
  have hb' : (0 : ℚ) < (b.den : ℚ) := by exact_mod_cast hb
  rw [div_lt_div_iff₀ ha' hb']
  constructor
  · intro h; exact_mod_cast h
  · intro h; exact_mod_cast h

/-- C4: at the in-domain valuation length=8, load1=10, load2=10, dist1=3,
dist2=5 the solved reactions are ra = rb = 10, both distractor guards fire,
and options 1 and 3 render as the identical string
"Ra = 13.0 kN, Rb = 7.0 kN" — the four option strings are NOT pairwise
distinct, contradicting the distinctness contract. -/
theorem beam_ss_two_loads_duplicate_options :
    beamSsTwoLoads_domain ⟨⟨8, 1⟩, ⟨10, 1⟩, ⟨10, 1⟩, ⟨3, 1⟩, ⟨5, 1⟩⟩ ∧
    beamSsTwoLoads_options ⟨⟨8, 1⟩, ⟨10, 1⟩, ⟨10, 1⟩, ⟨3, 1⟩, ⟨5, 1⟩⟩ =
      ["Ra = 10.0 kN, Rb = 10.0 kN", "Ra = 13.0 kN, Rb = 7.0 kN",
        "Ra = 20.0 kN, Rb = 0 kN", "Ra = 13.0 kN, Rb = 7.0 kN"] ∧
    ¬ List.Pairwise (fun a b => a ≠ b)
        (beamSsTwoLoads_options ⟨⟨8, 1⟩, ⟨10, 1⟩, ⟨10, 1⟩, ⟨3, 1⟩, ⟨5, 1⟩⟩) := by
  refine ⟨⟨⟨0, by decide, by decide⟩, ⟨0, by decide, by decide⟩,
    ⟨0, by decide, by decide⟩, ⟨1, by decide, by decide⟩,
    ⟨0, by decide, by decide⟩⟩, by decide, by decide⟩

/-! ## Helper lemmas -/

theorem head?_mem {l : List α} {a : α} (h : l.head? = some a) : a ∈ l := by
  cases l with
  | nil => simp at h
  | cons b t =>
    have hb : b = a := by simpa using h
    rw [← hb]
    exact List.mem_cons_self _ _

theorem mem_insertByKey {key : α → Int} {x a : α} {l : List α} :
    a ∈ insertByKey key x l ↔ a = x ∨ a ∈ l := by
  induction l with
  | nil => simp [insertByKey]
  | cons b t ih =>
    by_cases h : key x < key b
    · simp [insertByKey, h]
    · simp only [insertByKey, if_neg h, List.mem_cons, ih]
      tauto

theorem mem_sortedByKey {key : α → Int} {a : α} {l : List α} :
    a ∈ sortedByKey key l ↔ a ∈ l := by
  induction l with
  | nil => simp [sortedByKey]
  | cons b t ih => simp [sortedByKey, mem_insertByKey, ih]

theorem mem_updateContent {l : List Content} {cid : Nat} {f : Content → Content}
    {c' : Content} (h : c' ∈ updateContent l cid f) :
    (∃ c ∈ l, c.id = cid ∧ c' = f c) ∨ (c' ∈ l ∧ c'.id ≠ cid) := by
  obtain ⟨c0, hc0, heq⟩ := List.mem_map.mp h
  by_cases h0 : c0.id = cid
  · exact Or.inl ⟨c0, hc0, h0, by rw [← heq, if_pos h0]⟩
  · refine Or.inr ⟨?_, ?_⟩
    · rw [← heq, if_neg h0]; exact hc0
    · rw [← heq, if_neg h0]; exact h0

theorem updateContent_image_mem {l : List Content} {cid : Nat}
    {f : Content → Content} {c : Content} (hc : c ∈ l) (hid : c.id = cid) :
    f c ∈ updateContent l cid f :=
  List.mem_map.mpr ⟨c, hc, by simp [hid]⟩

theorem updateContent_unchanged {l : List Content} {cid : Nat}
    {f : Content → Content} (h : ∀ c ∈ l, c.id ≠ cid) :
    updateContent l cid f = l := by
  unfold updateContent
  induction l with
  | nil => rfl
  | cons b t ih =>
    have hb : b.id ≠ cid := h b (List.mem_cons_self _ _)
    rw [List.map_cons, if_neg hb, ih (fun c hc => h c (List.mem_cons_of_mem _ hc))]

/-! ## C8: the queue precondition gate -/

/-- C8: a queue request for an existing content item whose status is not in
(READY, PUBLISHED) or that has no diagram reference is rejected with a
client error (HTTP 400) and the database — schedules, contents, outbox —
is left unchanged. -/
theorem queue_content_gate_rejects (cfg : AppConfig) (db : Db) (now : Int)
    (req : QueueRequest) (content : Content)
    (hfind : findContent db req.content_id = some content)
    (hbad : ¬(content.status = ContentStatus.ready ∨
        content.status = ContentStatus.published) ∨
      content.diagram_path = none) :
    (queue_content cfg db now req).1 = db ∧
    ∃ d, (queue_content cfg db now req).2 = Except.error (ApiError.badRequest d) := by
  unfold queue_content
  by_cases hs : cfg.useSqs
  · rw [if_pos hs]
    simp only [hfind]
    rcases hbad with hb | hb
    · rw [if_neg hb]
      exact ⟨rfl, ⟨_, rfl⟩⟩
    · by_cases hst : content.status = ContentStatus.ready ∨
          content.status = ContentStatus.published
      · rw [if_pos hst]
        simp only [hb]
        exact ⟨trivial, ⟨_, rfl⟩⟩
      · rw [if_neg hst]
        exact ⟨rfl, ⟨_, rfl⟩⟩
  · rw [if_neg hs]
    exact ⟨rfl, ⟨_, rfl⟩⟩

/-- Witness for C8: a DRAFT content item without a diagram is rejected and
nothing is mutated. -/
theorem queue_content_gate_rejects_witness :
    findContent fixDbDraft 1 = some fixContentDraft ∧
    ¬(fixContentDraft.status = ContentStatus.ready ∨
        fixContentDraft.status = ContentStatus.published) ∧
    ((queue_content ⟨true, 120⟩ fixDbDraft 0 { content_id := 1 }).1 = fixDbDraft ∧
      ∃ d, (queue_content ⟨true, 120⟩ fixDbDraft 0 { content_id := 1 }).2 =
        Except.error (ApiError.badRequest d)) :=
  ⟨by decide, by decide,
    queue_content_gate_rejects ⟨true, 120⟩ fixDbDraft 0 { content_id := 1 }
      fixContentDraft (by decide) (Or.inl (by decide))⟩

/-! ## C2: single-item schedule time -/

/-- C2 (amended): a queue request without an explicit time on a READY (or
PUBLISHED) content item with a diagram appends one PENDING schedule record
and one outbox job, both carrying
`scheduled_at = lastPendingScheduledAt + interval` when a PENDING record
exists (NOT `max(lastPendingScheduledAt, now) + interval`), and
`now + 5` minutes when none exists; the content item becomes QUEUED. -/
theorem queue_content_schedule_time (cfg : AppConfig) (db : Db) (now : Int)
    (req : QueueRequest) (content : Content) (img : String) (pf : Platform)
    (hsqs : cfg.useSqs = true)
    (hfind : findContent db req.content_id = some content)
    (hstat : content.status = ContentStatus.ready ∨
      content.status = ContentStatus.published)
    (himg : content.diagram_path = some img)
    (hnotime : req.scheduled_at = none)
    (hpf : Platform.ofString req.platform = some pf) :
    ∃ sched : Schedule,
      (queue_content cfg db now req).1.schedules = db.schedules ++ [sched] ∧
      sched.status = ScheduleStatus.pending ∧
      sched.content_id = content.id ∧
      sched.scheduled_at =
        (match maxPendingScheduledAt db.schedules with
         | some last => last + getPublishInterval cfg db
         | none => now + 5) ∧
      (queue_content cfg db now req).1.sqsOutbox = db.sqsOutbox ++
        [⟨content.id, req.platform, buildCaption content none, img,
          some sched.scheduled_at⟩] ∧
      (∀ c ∈ (queue_content cfg db now req).1.contents,
        c.id = content.id → c.status = ContentStatus.queued) ∧
      (queue_content cfg db now req).2 = Except.ok ⟨sched.id, sched.scheduled_at⟩ := by
  unfold queue_content
  rw [if_pos hsqs]
  simp only [hfind, hnotime, himg, hpf]
  rw [if_pos hstat]
  refine ⟨_, rfl, rfl, rfl, rfl, rfl, ?_, rfl⟩
  intro c hc hcid
  rcases mem_updateContent hc with ⟨c0, _, _, rfl⟩ | ⟨_, hne⟩
  · rfl
  · exact absurd hcid hne

/-- Witness for C2 at a concrete input with one PENDING schedule at time 40,
interval 10 and now = 0: the new schedule is at 40 + 10 = 50. -/
theorem queue_content_schedule_time_witness :
    (⟨true, 120⟩ : AppConfig).useSqs = true ∧
    ∃ sched : Schedule,
      (queue_content ⟨true, 120⟩ (fixDbPending 40) 0
          { content_id := 1 }).1.schedules =
        (fixDbPending 40).schedules ++ [sched] ∧
      sched.status = ScheduleStatus.pending ∧
      sched.content_id = 1 ∧
      sched.scheduled_at =
        (match maxPendingScheduledAt (fixDbPending 40).schedules with
         | some last => last + getPublishInterval ⟨true, 120⟩ (fixDbPending 40)
         | none => (0 : Int) + 5) := by
  refine ⟨rfl, ?_⟩
  obtain ⟨sched, h1, h2, h3, h4, _, _, _⟩ :=
    queue_content_schedule_time ⟨true, 120⟩ (fixDbPending 40) 0
      { content_id := 1 } fixContentReady "img.png" Platform.twitter rfl
      (by decide) (Or.inl rfl) rfl rfl rfl
  exact ⟨sched, h1, h2, h3, h4⟩

/-- C2 counterexample to the claim as stated: with one PENDING schedule at
time 0, now = 100 and interval 10, the code schedules at 0 + 10 = 10, not at
`max(0, 100) + 10 = 110` as the claim requires. -/
theorem queue_content_max_now_counterexample :
    (queue_content ⟨true, 120⟩ (fixDbPending 0) 100 { content_id := 1 }).2 =
      Except.ok ⟨1, 10⟩ ∧
    (10 : Int) ≠ max 0 100 + 10 :=
  ⟨rfl, by decide⟩

/-! ## C6: the worker due-time gate -/

/-- C6: a received job whose `scheduled_at` is strictly in the future causes
no database change and is not deleted from the queue on that poll. -/
theorem worker_due_gate (db : Db) (msg : SqsMessage) (now t : Int)
    (tw : Except String TweetResult) (rest : List SqsMessage)
    (hsched : msg.scheduled_at = some t) (hfut : t > now) :
    process_message db msg now tw = (db, false) ∧
    pollOnce db (msg :: rest) now tw = (db, msg :: rest) := by
  have h1 : process_message db msg now tw = (db, false) := by
    unfold process_message
    rw [hsched]
    show (if t > now then ((db, false) : Db × Bool)
      else process_message.processDueMessage db msg now tw) = (db, false)
    rw [if_pos hfut]
  refine ⟨h1, ?_⟩
  show ((process_message db msg now tw).1,
    if (process_message db msg now tw).2 then rest else msg :: rest) =
      (db, msg :: rest)
  rw [h1]
  rfl

/-- Witness for C6: a job due 5 minutes from now is skipped and left in the
queue. -/
theorem worker_due_gate_witness :
    (fixMsg (some 105)).scheduled_at = some 105 ∧ (105 : Int) > 100 ∧
    process_message {} (fixMsg (some 105)) 100 (Except.error "unused") =
      ({}, false) ∧
    pollOnce {} [fixMsg (some 105)] 100 (Except.error "unused") =
      ({}, [fixMsg (some 105)]) :=
  ⟨rfl, by decide,
    (worker_due_gate {} (fixMsg (some 105)) 100 105 (Except.error "unused") []
      rfl (by decide)).1,
    (worker_due_gate {} (fixMsg (some 105)) 100 105 (Except.error "unused") []
      rfl (by decide)).2⟩

/-! ## C7 and C10: worker terminal finalization -/

theorem process_message_due (db : Db) (msg : SqsMessage) (now : Int)
    (tw : Except String TweetResult)
    (hdue : ∀ t, msg.scheduled_at = some t → t ≤ now) :
    process_message db msg now tw =
      process_message.processDueMessage db msg now tw := by
  unfold process_message
  cases hms : msg.scheduled_at with
  | none => rfl
  | some t =>
    have hnf : ¬ (t > now) := not_lt.mpr (hdue t hms)
    show (if t > now then ((db, false) : Db × Bool)
      else process_message.processDueMessage db msg now tw) = _
    rw [if_neg hnf]

theorem update_db_schedules_of_no_pending (db : Db) (cid : Nat)
    (success : Bool) (tid err : Option String) (now : Int)
    (h : mostRecentPending db.schedules cid = none) :
    (update_db db cid success tid err now).schedules = db.schedules := by
  simp only [update_db, h]

theorem update_db_contents_of_no_content (db : Db) (cid : Nat)
    (success : Bool) (tid err : Option String) (now : Int)
    (h : ∀ c ∈ db.contents, c.id ≠ cid) :
    (update_db db cid success tid err now).contents = db.contents := by
  simp only [update_db]
  exact updateContent_unchanged h

/-- C7: for a due job on a supported platform whose publish call raises, the
worker sets every content row with the job's id to FAILED, sets the most
recently created PENDING schedule record for that content to FAILED carrying
the error text, and deletes the job from the queue (no retry). -/
theorem worker_publish_failure_finalizes (db : Db) (msg : SqsMessage)
    (now : Int) (e : String) (sch : Schedule)
    (hdue : ∀ t, msg.scheduled_at = some t → t ≤ now)
    (hplat : msg.platform = "twitter")
    (hsch : mostRecentPending db.schedules msg.content_id = some sch) :
    (process_message db msg now (Except.error e)).2 = true ∧
    (∀ c ∈ (process_message db msg now (Except.error e)).1.contents,
      c.id = msg.content_id → c.status = ContentStatus.failed) ∧
    ∃ s ∈ (process_message db msg now (Except.error e)).1.schedules,
      s.id = sch.id ∧ s.status = ScheduleStatus.failed ∧
      s.error_message = some e := by
  have hmem : sch ∈ db.schedules := by
    have h1 := head?_mem hsch
    exact List.mem_of_mem_filter (mem_sortedByKey.mp h1)
  have hred : process_message db msg now (Except.error e) =
      (update_db db msg.content_id false none (some e) now, true) := by
    rw [process_message_due _ _ _ _ hdue]
    unfold process_message.processDueMessage
    rw [if_neg (by simp [hplat])]
  rw [hred]
  refine ⟨rfl, ?_, ?_⟩
  · intro c hc hcid
    simp only [update_db] at hc
    rcases mem_updateContent hc with ⟨c0, _, _, rfl⟩ | ⟨_, hne⟩
    · rfl
    · exact absurd hcid hne
  · refine ⟨{ sch with status := ScheduleStatus.failed, error_message := some e },
      ?_, rfl, rfl, rfl⟩
    simp only [update_db, hsch]
    exact List.mem_map.mpr ⟨sch, hmem, by simp⟩

/-- Witness for C7: a due job for content 7 with one PENDING schedule; the
publish collaborator raises "boom". -/
theorem worker_publish_failure_finalizes_witness :
    (∀ t, (fixMsg (some 50)).scheduled_at = some t → t ≤ 100) ∧
    (fixMsg (some 50)).platform = "twitter" ∧
    mostRecentPending fixDbWorker.schedules 7 = some fixSchedPending7 ∧
    ∃ s ∈ (process_message fixDbWorker (fixMsg (some 50)) 100
        (Except.error "boom")).1.schedules,
      s.id = fixSchedPending7.id ∧ s.status = ScheduleStatus.failed ∧
      s.error_message = some "boom" := by
  have hdue : ∀ t, (fixMsg (some 50)).scheduled_at = some t → t ≤ 100 := by
    intro t ht
    have h50 : (50 : Int) = t := by simpa [fixMsg] using ht
    omega
  refine ⟨hdue, rfl, by decide, ?_⟩
  obtain ⟨_, _, s, hs1, hs2, hs3, hs4⟩ :=
    worker_publish_failure_finalizes fixDbWorker (fixMsg (some 50)) 100
      "boom" fixSchedPending7 hdue rfl (by decide)
  exact ⟨s, hs1, hs2, hs3, hs4⟩

/-- C10: every due job is deleted from the queue whatever the outcome, and
the terminal update silently skips missing rows: with no PENDING schedule
record for the content the schedule table is unchanged, and with no content
row the content table is unchanged; no error is raised (the update is a
total function). -/
theorem worker_missing_rows_skipped (db : Db) (msg : SqsMessage) (now : Int)
    (tw : Except String TweetResult)
    (hdue : ∀ t, msg.scheduled_at = some t → t ≤ now) :
    (process_message db msg now tw).2 = true ∧
    (mostRecentPending db.schedules msg.content_id = none →
      (process_message db msg now tw).1.schedules = db.schedules) ∧
    ((∀ c ∈ db.contents, c.id ≠ msg.content_id) →
      (process_message db msg now tw).1.contents = db.contents) := by
  rw [process_message_due _ _ _ _ hdue]
  unfold process_message.processDueMessage
  by_cases hp : msg.platform = "twitter"
  · rw [if_neg (by simp [hp])]
    cases tw with
    | ok r =>
      exact ⟨rfl, fun h => update_db_schedules_of_no_pending _ _ _ _ _ _ h,
        fun h => update_db_contents_of_no_content _ _ _ _ _ _ h⟩
    | error e =>
      exact ⟨rfl, fun h => update_db_schedules_of_no_pending _ _ _ _ _ _ h,
        fun h => update_db_contents_of_no_content _ _ _ _ _ _ h⟩
  · rw [if_pos (by simpa using hp)]
    exact ⟨rfl, fun h => update_db_schedules_of_no_pending _ _ _ _ _ _ h,
      fun h => update_db_contents_of_no_content _ _ _ _ _ _ h⟩

/-- Witness for C10: a due job against an empty database is still deleted
and changes nothing. -/
theorem worker_missing_rows_skipped_witness :
    (∀ t, (fixMsg none).scheduled_at = some t → t ≤ 0) ∧
    ((process_message {} (fixMsg none) 0 (Except.ok ⟨"id1", "u"⟩)).2 = true ∧
      (mostRecentPending ({} : Db).schedules (fixMsg none).content_id = none →
        (process_message {} (fixMsg none) 0
          (Except.ok ⟨"id1", "u"⟩)).1.schedules = ({} : Db).schedules) ∧
      ((∀ c ∈ ({} : Db).contents, c.id ≠ (fixMsg none).content_id) →
        (process_message {} (fixMsg none) 0
          (Except.ok ⟨"id1", "u"⟩)).1.contents = ({} : Db).contents)) :=
  ⟨(fun _ ht => nomatch ht),
    worker_missing_rows_skipped {} (fixMsg none) 0 (Except.ok ⟨"id1", "u"⟩)
      (fun _ ht => nomatch ht)⟩

/-! ## C5: generation pipeline state machine -/

/-- C5: on an existing content item the pipeline never leaves the item
GENERATING: it ends READY (only with both the script payload and the
diagram reference set) or FAILED; when the AI or diagram step raises, the
item is FAILED with a non-null error message; the topics table and the
content row itself are never deleted. -/
theorem generation_pipeline_state_machine (db : Db) (cid : Nat)
    (ai : List String → Except String ScriptData)
    (diagram : ScriptData → Except String String) (c0 : Content)
    (hfind : findContent db cid = some c0) :
    (run_generation_pipeline db cid ai diagram).topics = db.topics ∧
    (∃ c' ∈ (run_generation_pipeline db cid ai diagram).contents,
      c'.id = cid) ∧
    ∀ c' ∈ (run_generation_pipeline db cid ai diagram).contents, c'.id = cid →
      ((c'.status = ContentStatus.ready →
          c'.script_data ≠ none ∧ c'.diagram_path ≠ none) ∧
        (c'.status = ContentStatus.ready ∨ c'.status = ContentStatus.failed) ∧
        (((∃ e, ai (recentTemplateIds db) = Except.error e) ∨
            (∃ sd e, ai (recentTemplateIds db) = Except.ok sd ∧
              diagram sd = Except.error e)) →
          c'.status = ContentStatus.failed ∧ c'.error_message ≠ none)) := by
  have hmem : c0 ∈ db.contents := List.mem_of_find?_eq_some hfind
  have hid : c0.id = cid := by
    have := List.find?_some hfind
    simpa using this
  cases hai : ai (recentTemplateIds db) with
  | error e =>
    have hred : run_generation_pipeline db cid ai diagram =
        { db with contents := (updateContent db.contents cid (fun c =>
            { c with status := ContentStatus.failed, error_message := some e })) } := by
      unfold run_generation_pipeline
      simp only [hfind, hai]
    rw [hred]
    refine ⟨rfl, ⟨_, updateContent_image_mem hmem hid, hid⟩, ?_⟩
    intro c' hc' hcid
    rcases mem_updateContent hc' with ⟨_, _, _, rfl⟩ | ⟨_, hne⟩
    · exact ⟨(fun h => nomatch h), Or.inr rfl, (fun _ => ⟨rfl, by simp⟩)⟩
    · exact absurd hcid hne
  | ok sd =>
    cases hdi : diagram sd with
    | error e =>
      have hred : run_generation_pipeline db cid ai diagram =
          { db with contents := (updateContent db.contents cid (fun c =>
              { c with script_data := some sd,
                       script_text := some (scriptTextOf sd),
                       status := ContentStatus.failed,
                       error_message := some e })) } := by
        unfold run_generation_pipeline
        simp only [hfind, hai, hdi]
      rw [hred]
      refine ⟨rfl, ⟨_, updateContent_image_mem hmem hid, hid⟩, ?_⟩
      intro c' hc' hcid
      rcases mem_updateContent hc' with ⟨_, _, _, rfl⟩ | ⟨_, hne⟩
      · exact ⟨(fun h => nomatch h), Or.inr rfl, (fun _ => ⟨rfl, by simp⟩)⟩
      · exact absurd hcid hne
    | ok dpath =>
      have hred : run_generation_pipeline db cid ai diagram =
          { db with contents := (updateContent db.contents cid (fun c =>
              { c with script_data := some sd,
                       script_text := some (scriptTextOf sd),
                       diagram_path := some dpath,
                       status := ContentStatus.ready })) } := by
        unfold run_generation_pipeline
        simp only [hfind, hai, hdi]
      rw [hred]
      refine ⟨rfl, ⟨_, updateContent_image_mem hmem hid, hid⟩, ?_⟩
      intro c' hc' hcid
      rcases mem_updateContent hc' with ⟨_, _, _, rfl⟩ | ⟨_, hne⟩
      · refine ⟨(fun _ => ⟨by simp, by simp⟩), Or.inl rfl, ?_⟩
        intro hfail
        rcases hfail with ⟨e, he⟩ | ⟨sd2, e, hsd2, he⟩
        · exact nomatch he
        · have hsame : sd = sd2 := Except.ok.inj hsd2
          rw [← hsame, hdi] at he
          exact nomatch he
      · exact absurd hcid hne

/-- Witness for C5: a GENERATING content item whose AI and diagram steps
both succeed. -/
theorem generation_pipeline_state_machine_witness :
    findContent fixDbGen 1 = some fixContentGen ∧
    ((run_generation_pipeline fixDbGen 1 aiOk diagramOk).topics =
        fixDbGen.topics ∧
      (∃ c' ∈ (run_generation_pipeline fixDbGen 1 aiOk diagramOk).contents,
        c'.id = 1) ∧
      ∀ c' ∈ (run_generation_pipeline fixDbGen 1 aiOk diagramOk).contents,
        c'.id = 1 →
        ((c'.status = ContentStatus.ready →
            c'.script_data ≠ none ∧ c'.diagram_path ≠ none) ∧
          (c'.status = ContentStatus.ready ∨
            c'.status = ContentStatus.failed) ∧
          (((∃ e, aiOk (recentTemplateIds fixDbGen) = Except.error e) ∨
              (∃ sd e, aiOk (recentTemplateIds fixDbGen) = Except.ok sd ∧
                diagramOk sd = Except.error e)) →
            c'.status = ContentStatus.failed ∧ c'.error_message ≠ none))) :=
  ⟨by decide,
    generation_pipeline_state_machine fixDbGen 1 aiOk diagramOk fixContentGen
      (by decide)⟩

theorem enqueueReadyLoop_schedules (iv lt now : Int) :
    ∀ (l : List Content) (qc : Nat) (db : Db),
      (enqueueReadyLoop iv lt now l qc db).schedules =
        db.schedules ++ mkPendingScheds iv lt now l qc db.nextScheduleId := by
  intro l
  induction l with
  | nil =>
    intro qc db
    simp [enqueueReadyLoop, mkPendingScheds]
  | cons c rest ih =>
    intro qc db
    simp only [enqueueReadyLoop]
    rw [ih]
    simp [mkPendingScheds, List.append_assoc]

theorem mkPendingScheds_map_times (iv lt now : Int) :
    ∀ (l : List Content) (qc nid : Nat),
      (mkPendingScheds iv lt now l qc nid).map (fun s => s.scheduled_at) =
        timesFrom iv lt qc l.length := by
  intro l
  induction l with
  | nil => intro qc nid; rfl
  | cons c rest ih =>
    intro qc nid
    simp [mkPendingScheds, timesFrom, ih]

theorem mkPendingScheds_pending (iv lt now : Int) :
    ∀ (l : List Content) (qc nid : Nat) (s : Schedule),
      s ∈ mkPendingScheds iv lt now l qc nid →
        s.status = ScheduleStatus.pending := by
  intro l
  induction l with
  | nil => intro qc nid s hs; simp [mkPendingScheds] at hs
  | cons c rest ih =>
    intro qc nid s hs
    rcases List.mem_cons.mp hs with h | h
    · rw [h]
    · exact ih (qc + 1) (nid + 1) s h

theorem timesFrom_get? (iv lt : Int) :
    ∀ (n qc i : Nat), i < n →
      (timesFrom iv lt qc n).get? i =
        some (lt + iv * ((qc : Int) + (i : Int) + 1)) := by
  intro n
  induction n with
  | zero => intro qc i h; exact absurd h (Nat.not_lt_zero i)
  | succ n ih =>
    intro qc i h
    cases i with
    | zero =>
      simp [timesFrom]
    | succ j =>
      have hj : j < n := Nat.lt_of_succ_lt_succ h
      show (timesFrom iv lt (qc + 1) n).get? j = _
      rw [ih (qc + 1) j hj]
      simp only [Option.some.injEq]
      push_cast
      ring

theorem mem_timesFrom (iv lt : Int) :
    ∀ (n qc : Nat) (x : Int), x ∈ timesFrom iv lt qc n →
      ∃ j : Nat, j < n ∧ x = lt + iv * ((qc : Int) + (j : Int) + 1) := by
  intro n
  induction n with
  | zero => intro qc x hx; simp [timesFrom] at hx
  | succ n ih =>
    intro qc x hx
    rcases List.mem_cons.mp hx with h | h
    · refine ⟨0, Nat.succ_pos n, ?_⟩
      rw [h]
      push_cast
      ring
    · obtain ⟨j, hj, hxe⟩ := ih (qc + 1) x h
      refine ⟨j + 1, Nat.succ_lt_succ hj, ?_⟩
      rw [hxe]
      push_cast
      ring

theorem timesFrom_pairwise (iv lt : Int) (hpos : 0 < iv) :
    ∀ (n qc : Nat), List.Pairwise (fun a b => a < b) (timesFrom iv lt qc n) := by
  intro n
  induction n with
  | zero => intro qc; simp [timesFrom]
  | succ n ih =>
    intro qc
    refine List.Pairwise.cons ?_ (ih (qc + 1))
    intro y hy
    obtain ⟨j, hj, rfl⟩ := mem_timesFrom iv lt n (qc + 1) y hy
    have harg : ((qc : Int) + 1) < ((qc + 1 : Nat) : Int) + (j : Int) + 1 := by
      push_cast
      omega
    exact add_lt_add_left (mul_lt_mul_of_pos_left harg hpos) lt

theorem updateContent_queued_preserved (l : List Content) (cid i : Nat)
    (h : ∀ c ∈ l, c.id = i → c.status = ContentStatus.queued) :
    ∀ c ∈ updateContent l cid
        (fun x => { x with status := ContentStatus.queued }),
      c.id = i → c.status = ContentStatus.queued := by
  intro c hc hci
  rcases mem_updateContent hc with ⟨c0, hc0, hcid0, rfl⟩ | ⟨hcl, _⟩
  · rfl
  · exact h c hcl hci

theorem updateContent_queued_self (l : List Content) (cid : Nat) :
    ∀ c ∈ updateContent l cid
        (fun x => { x with status := ContentStatus.queued }),
      c.id = cid → c.status = ContentStatus.queued := by
  intro c hc hci
  rcases mem_updateContent hc with ⟨_, _, _, rfl⟩ | ⟨_, hne⟩
  · rfl
  · exact absurd hci hne

theorem enqueueReadyLoop_queued (iv lt now : Int) :
    ∀ (l : List Content) (qc : Nat) (db : Db) (i : Nat),
      ((∀ c ∈ db.contents, c.id = i → c.status = ContentStatus.queued) ∨
        i ∈ l.map (fun c => c.id)) →
      ∀ x ∈ (enqueueReadyLoop iv lt now l qc db).contents,
        x.id = i → x.status = ContentStatus.queued := by
  intro l
  induction l with
  | nil =>
    intro qc db i hi x hx hxi
    rcases hi with h | h
    · exact h x hx hxi
    · simp at h
  | cons c rest ih =>
    intro qc db i hi x hx hxi
    simp only [enqueueReadyLoop] at hx
    refine ih (qc + 1) _ i ?_ x hx hxi
    rcases hi with h | h
    · exact Or.inl (updateContent_queued_preserved _ _ _ h)
    · simp only [List.map_cons, List.mem_cons] at h
      rcases h with rfl | h
      · exact Or.inl (updateContent_queued_self _ _)
      · exact Or.inr h

/-- C3 (amended): the bulk queue-all-ready operation with K ready items
appends K PENDING schedule records; the i-th (0-indexed) receives
`scheduled_at = base + (i+1)·interval` where `base` is the maximum PENDING
`scheduled_at` when one exists and `now` otherwise (NOT
`max(lastPendingScheduledAt, now)`); with a positive interval the times are
strictly increasing with equal gaps of one interval; every ready item's
content row becomes QUEUED. -/
theorem queue_all_ready_spacing (cfg : AppConfig) (db : Db) (now : Int)
    (hsqs : cfg.useSqs = true) (hne : readyContents db ≠ []) :
    ∃ new : List Schedule,
      (queue_all_ready cfg db now).1.schedules = db.schedules ++ new ∧
      new.map (fun s => s.scheduled_at) =
        timesFrom (getPublishInterval cfg db)
          ((maxPendingScheduledAt db.schedules).getD now) 0
          (readyContents db).length ∧
      (∀ i : Nat, i < (readyContents db).length →
        (new.map (fun s => s.scheduled_at)).get? i =
          some ((maxPendingScheduledAt db.schedules).getD now +
            getPublishInterval cfg db * ((i : Int) + 1))) ∧
      (0 < getPublishInterval cfg db →
        List.Pairwise (fun a b => a < b)
          (new.map (fun s => s.scheduled_at))) ∧
      (∀ s ∈ new, s.status = ScheduleStatus.pending) ∧
      (∀ c ∈ readyContents db,
        ∀ x ∈ (queue_all_ready cfg db now).1.contents,
          x.id = c.id → x.status = ContentStatus.queued) ∧
      (queue_all_ready cfg db now).2 = Except.ok (readyContents db).length := by
  have hE : (readyContents db).isEmpty = false := by
    rcases h' : readyContents db with _ | _
    · exact absurd h' hne
    · rfl
  have hq : queue_all_ready cfg db now =
      (enqueueReadyLoop (getPublishInterval cfg db)
        ((maxPendingScheduledAt db.schedules).getD now) now
        (readyContents db) 0 db,
       Except.ok (readyContents db).length) := by
    unfold queue_all_ready
    rw [if_pos hsqs]
    simp only [hE, Bool.false_eq_true, if_false]
  rw [hq]
  refine ⟨mkPendingScheds (getPublishInterval cfg db)
      ((maxPendingScheduledAt db.schedules).getD now) now
      (readyContents db) 0 db.nextScheduleId,
    enqueueReadyLoop_schedules _ _ _ _ _ _,
    mkPendingScheds_map_times _ _ _ _ _ _, ?_, ?_, ?_, ?_, rfl⟩
  · intro i hi
    rw [mkPendingScheds_map_times, timesFrom_get? _ _ _ _ _ hi]
    norm_num
  · intro hpos
    rw [mkPendingScheds_map_times]
    exact timesFrom_pairwise _ _ hpos _ _
  · intro s hs
    exact mkPendingScheds_pending _ _ _ _ _ _ s hs
  · intro c hc x hx hxi
    exact enqueueReadyLoop_queued _ _ _ _ _ _ c.id
      (Or.inr (List.mem_map_of_mem (fun c => c.id) hc)) x hx hxi

/-- Witness for C3, the Scenario B instance: three READY items, zero PENDING
schedules, interval 10, now = 1000: the items are scheduled at 1010, 1020,
1030 and all contents become QUEUED. -/
theorem queue_all_ready_spacing_witness :
    (⟨true, 120⟩ : AppConfig).useSqs = true ∧
    readyContents fixDbThreeReady ≠ [] ∧
    ((queue_all_ready ⟨true, 120⟩ fixDbThreeReady 1000).1.schedules.map
      (fun s => s.scheduled_at)) = [1010, 1020, 1030] ∧
    ((queue_all_ready ⟨true, 120⟩ fixDbThreeReady 1000).1.contents.map
      (fun c => c.status)) =
      [ContentStatus.queued, ContentStatus.queued, ContentStatus.queued] ∧
    ∃ new : List Schedule,
      (queue_all_ready ⟨true, 120⟩ fixDbThreeReady 1000).1.schedules =
        fixDbThreeReady.schedules ++ new ∧
      new.map (fun s => s.scheduled_at) =
        timesFrom 10 1000 0 (readyContents fixDbThreeReady).length := by
  refine ⟨rfl, by decide, by decide, by decide, ?_⟩
  obtain ⟨new, h1, h2, _⟩ :=
    queue_all_ready_spacing ⟨true, 120⟩ fixDbThreeReady 1000 rfl (by decide)
  exact ⟨new, h1, h2⟩

/-- C3 counterexample to the claim as stated: with one PENDING schedule at
time 0, now = 100 and interval 10, the single ready item is scheduled at
0 + 10 = 10, not at `max(0, 100) + 10 = 110` as the claimed base
`max(lastPendingScheduledAt, now)` requires. -/
theorem queue_all_ready_base_counterexample :
    ((queue_all_ready ⟨true, 120⟩ (fixDbPending 0) 100).1.schedules.map
      (fun s => s.scheduled_at)) = [0, 10] ∧
    (10 : Int) ≠ max 0 100 + 10 :=
  ⟨by decide, by decide⟩

end EduStream
